import Mathlib

/-!
Shallow embedding of the netpeddler UDP transport library (packet codec,
ACK engine, reliability tracker, connection surface) together with
theorems checking the specification claims against it.

Machine integers are modelled as Nat with explicit reduction modulo
2 ^ 32 (or 2 ^ 8) exactly where the Go code can overflow; byte buffers
are lists of Nat that callers keep below 256.
-/

namespace Netpeddler

/-- Modulus of the unsigned 32-bit integers used throughout the source. -/
def U32MOD : Nat := 2 ^ 32

/-- Modulus of the unsigned 8-bit counters (the retry fail counter). -/
def U8MOD : Nat := 2 ^ 8

/-- Depth of the ACK bitmask window, the constant ackMaskDepth and
maskDepth = 32 of the source. -/
def ackMaskDepth : Nat := 32

/-- Byte offset of the payload on the wire: five uint32 fields and one
uint8 field, binary.Size gives 4 * 5 + 1 = 21. -/
def payloadOffset : Nat := 21

/-- Embedding of the Packet struct of packet.go.  The RemoteAddress
pointer is modelled as an optional abstract address (a Nat); it is not
on the wire. -/
structure Packet where
  clientId : Nat
  seq : Nat
  chan : Nat
  ackSeq : Nat
  ackMask : Nat
  payloadSize : Nat
  payload : List Nat
  remoteAddress : Option Nat := none
deriving Repr, DecidableEq

/-- Big-endian byte encoding of a uint32, most significant byte first,
as binary.Write with binary.BigEndian produces. -/
def u32BE (x : Nat) : List Nat :=
  [x / 16777216 % 256, x / 65536 % 256, x / 256 % 256, x % 256]

/-- The 21 header bytes WriteTo emits: the six header fields in wire
order, big-endian, the uint8 channel truncated to a byte. -/
def encodeHeader (p : Packet) : List Nat :=
  u32BE p.clientId ++ u32BE p.seq ++ [p.chan % 256] ++
    u32BE p.ackSeq ++ u32BE p.ackMask ++ u32BE p.payloadSize

/-- Embedding of Packet.WriteTo (packet.go lines 61-107).  The Go code
resets the scratch buffer and writes the seven header fields big-endian
followed by the slice p.Payload[:p.PayloadSize].  When p.PayloadSize
exceeds the payload buffer length that slice expression is out of range
and the Go program panics at runtime; the panic is modelled as none. -/
def WriteTo (p : Packet) : Option (List Nat) :=
  if p.payloadSize ≤ p.payload.length then
    some (encodeHeader p ++ p.payload.take p.payloadSize)
  else
    none

/-- Error result of NewPacketFrom: the source rejects a short read with
the message "Not enough bytes (n) read to form a packet." -/
inductive DecodeError where
  | malformedHeader
deriving Repr, DecidableEq

/-- Sequential big-endian uint32 read from a byte buffer, as binary.Read
consumes a bytes.Buffer.  On a buffer holding fewer than four bytes
binary.Read drains the buffer, reports an error that NewPacketFrom
ignores, and leaves the zero-initialized destination untouched. -/
def readU32 : List Nat → Nat × List Nat
  | b1 :: b2 :: b3 :: b4 :: rest => (((b1 * 256 + b2) * 256 + b3) * 256 + b4, rest)
  | _ => (0, [])

/-- Sequential uint8 read from a byte buffer, as binary.Read consumes a
single byte. -/
def readU8 : List Nat → Nat × List Nat
  | b1 :: rest => (b1, rest)
  | _ => (0, [])

/-- Embedding of NewPacketFrom (packet.go lines 109-137).  For n below
21 the function fails.  Otherwise the six header fields are read
sequentially; the payload buffer of a fresh packet has capacity zero, so
the resize branch always allocates a zero-filled buffer of byteLength =
n + 1 bytes, into which copy transfers min(n + 1, length b - 21) bytes
from offset 21 of b.  The wire payloadSize field is stored as read,
without any clamp against n.  Callers pass a buffer b holding at least
n bytes (the read buffer), so the slice b[21:] is in range here. -/
def NewPacketFrom (n : Nat) (b : List Nat) : Except DecodeError Packet :=
  if n < payloadOffset then
    .error .malformedHeader
  else
    let (clientId, r1) := readU32 b
    let (seq, r2) := readU32 r1
    let (chan, r3) := readU8 r2
    let (ackSeq, r4) := readU32 r3
    let (ackMask, r5) := readU32 r4
    let (payloadSize, _) := readU32 r5
    let byteLength := n + 1
    let src := b.drop payloadOffset
    let payload := src.take byteLength ++ List.replicate (byteLength - src.length) 0
    .ok { clientId := clientId, seq := seq, chan := chan, ackSeq := ackSeq,
          ackMask := ackMask, payloadSize := payloadSize, payload := payload,
          remoteAddress := none }

/-- Embedding of Packet.IsAckBy (packet.go lines 151-170): the receiver
packet acknowledges p when the ack sequence is at or above p.seq, the
difference is within the 32-bit mask depth, and the corresponding mask
bit is set. -/
def IsAckBy (p ackPacket : Packet) : Bool :=
  if ackPacket.ackSeq < p.seq then
    false
  else
    let seqDiff := ackPacket.ackSeq - p.seq
    if seqDiff ≥ ackMaskDepth then
      false
    else
      decide (ackPacket.ackMask &&& (1 <<< seqDiff) > 0)

/-- Well-formed packet: every numeric field fits its machine width, the
payload buffer bytes are bytes, and the buffer length equals the declared
payload size (as NewPacket constructs packets). -/
def WellFormed (p : Packet) : Prop :=
  p.clientId < U32MOD ∧ p.seq < U32MOD ∧ p.chan < 256 ∧
  p.ackSeq < U32MOD ∧ p.ackMask < U32MOD ∧ p.payloadSize < U32MOD ∧
  p.payload.length = p.payloadSize ∧ ∀ x ∈ p.payload, x < 256

/-- Embedding of the ReliablePacket struct of packet.go.  Durations and
absolute times are modelled as Nat ticks; the optional OnAck and
OnFailToAck callbacks are not modelled (they do not change tracker
state beyond what the operations below record). -/
structure ReliablePacket where
  packet : Packet
  retryInterval : Nat
  retryCount : Nat
  nextCheck : Nat
  failCount : Nat
deriving Repr, DecidableEq

/-- The two ACK-engine fields lastSeenSeq and lastAckMask of the
Connection struct, grouped so CalcAckMask can be stated on exactly the
state it touches. -/
structure AckState where
  lastSeenSeq : Nat
  lastAckMask : Nat
deriving Repr, DecidableEq

/-- Result of CalcAckMask: the updated connection ACK state together
with the pair of named return values (mask, seq) of the Go signature. -/
structure CalcAckMaskResult where
  state : AckState
  mask : Nat
  seq : Nat
deriving Repr, DecidableEq

/-- Embedding of Connection.CalcAckMask (connection.go lines 136-163).
The named return values mask and seq are zero-initialized by Go and the
body never assigns them before the bare return, so they are carried
through unchanged; only the receiver fields are updated.  Shifts on
uint32 discard high bits, hence the explicit reduction modulo 2 ^ 32. -/
def CalcAckMask (c : AckState) (currentSeq : Nat) : CalcAckMaskResult :=
  let mask : Nat := 0
  let seq : Nat := 0
  if c.lastSeenSeq < currentSeq then
    let seqDiff := currentSeq - c.lastSeenSeq
    let m1 := if seqDiff < ackMaskDepth ∧ seqDiff > 0 then
        (c.lastAckMask <<< seqDiff) % U32MOD
      else
        0
    { state := { lastSeenSeq := currentSeq, lastAckMask := m1 ||| 1 },
      mask := mask, seq := seq }
  else
    let seqDiff := c.lastSeenSeq - currentSeq
    if seqDiff < ackMaskDepth then
      { state := { c with lastAckMask := c.lastAckMask ||| 1 <<< seqDiff },
        mask := mask, seq := seq }
    else
      { state := c, mask := mask, seq := seq }

/-- The ACK update rule exactly as the specification words it in section
4.2: on a fresh newer sequence shift the mask left by the difference
(clearing it entirely when the difference reaches the window depth), set
bit 0 and advance last_seen_seq; on an old or duplicate sequence set bit
d when d is within the window and otherwise drop the update.  Returns
the pair (last_seen_seq, ack_mask) after the update. -/
def specAckUpdate (lastSeenSeq ackMask cur : Nat) : Nat × Nat :=
  if cur > lastSeenSeq then
    let d := cur - lastSeenSeq
    (cur, (if d < 32 then (ackMask <<< d) % U32MOD else 0) ||| 1)
  else
    let d := lastSeenSeq - cur
    if d < 32 then
      (lastSeenSeq, ackMask ||| 1 <<< d)
    else
      (lastSeenSeq, ackMask)

/-- Model of the UDP socket owned by a Connection: a closed flag, a
queue of inbound datagrams (payload bytes with their source address)
and the record of datagrams written (with their destination).  The
datagram service itself is an external collaborator; reads and writes
on a closed socket fail, and a read on an empty queue models a read
deadline expiry or would-block failure. -/
structure Socket where
  isClosed : Bool
  inbox : List (List Nat × Nat)
  outbox : List (List Nat × Nat)
deriving Repr, DecidableEq

/-- Socket write: fails when the socket is closed, otherwise records the
datagram. -/
def socketWrite (s : Socket) (bs : List Nat) (addr : Nat) : Except Unit Socket :=
  if s.isClosed then
    .error ()
  else
    .ok { s with outbox := s.outbox ++ [(bs, addr)] }

/-- Socket read: fails when the socket is closed or no datagram is
available before the deadline, otherwise pops the next datagram. -/
def socketRead (s : Socket) : Except Unit ((List Nat × Nat) × Socket) :=
  if s.isClosed then
    .error ()
  else
    match s.inbox with
    | [] => .error ()
    | d :: rest => .ok (d, { s with inbox := rest })

/-- Embedding of the Connection struct of connection.go.  The scratch
buffers, addresses and the OnPacketRead callback are abstracted: the
read buffer is modelled by delivering each inbound datagram directly,
the write scratch by the byte list handed to the socket, and addresses
by Nat tags. -/
structure Connection where
  socket : Socket
  remoteAddress : Option Nat
  updateAcksOnRead : Bool
  isOpen : Bool
  ackState : AckState
  acksNeeded : List ReliablePacket
  nextSeq : Nat
deriving Repr, DecidableEq

/-- Error kinds surfaced by connection operations.  The code reports
errors as wrapped message strings; these constructors name the wrapping
sites.  The closed constructor is modelled from the spec: the section 7
error kind Closed for an operation attempted on a closed connection has
no counterpart anywhere in the source, which never inspects isOpen in
Send, SendReliable or Read. -/
inductive NPError where
  | noRemote
  | sendFailed
  | readFailed
  | decodeFailed
  | closed
deriving Repr, DecidableEq

/-- Embedding of Connection.Close (connection.go lines 111-114): clear
the open flag and close the socket. -/
def Close (c : Connection) : Connection :=
  { c with isOpen := false, socket := { c.socket with isClosed := true } }

/-- Embedding of Connection.GetNextSeq (connection.go lines 202-206):
return the counter and post-increment it, wrapping as uint32 does. -/
def GetNextSeq (c : Connection) : Nat × Connection :=
  (c.nextSeq, { c with nextSeq := (c.nextSeq + 1) % U32MOD })

/-- Result of Send: the connection after its state effects, the packet
after the in-place field stamps the Go code performs through the
pointer, and the error if any.  Go returns the error separately from
the mutations, which survive it. -/
structure SendResult where
  conn : Connection
  packet : Packet
  err : Option NPError
deriving Repr, DecidableEq

/-- Embedding of Connection.Send (connection.go lines 208-237).  Steps
in source order: optionally stamp a fresh sequence, overwrite the ACK
piggyback fields from the engine state, encode (a payload overrun in
WriteTo is a runtime panic, modelled as none; the error value WriteTo
returns is discarded by Send), resolve the destination (the argument,
else the default remote, else the NoRemote error), then write to the
socket, wrapping a write failure as SendFailed.  Send never checks
isOpen. -/
def Send (c : Connection) (p : Packet) (generateNewSeq : Bool)
    (remote : Option Nat) : Option SendResult :=
  let (s, c1) := if generateNewSeq then
      let (s0, c0) := GetNextSeq c
      (s0, c0)
    else
      (p.seq, c)
  let p1 := { p with seq := s, ackSeq := c1.ackState.lastSeenSeq,
                     ackMask := c1.ackState.lastAckMask }
  match WriteTo p1 with
  | none => none
  | some bs =>
    match remote.orElse (fun _ => c1.remoteAddress) with
    | none => some { conn := c1, packet := p1, err := some .noRemote }
    | some addr =>
      match socketWrite c1.socket bs addr with
      | .error _ => some { conn := c1, packet := p1, err := some .sendFailed }
      | .ok sock => some { conn := { c1 with socket := sock }, packet := p1, err := none }

/-- Embedding of Connection.SendReliable (connection.go lines 239-255):
store the remote on the wrapped packet, delegate to Send and stop on
its error; on success set nextCheck = now + retryInterval and append the
record to the acksNeeded list. -/
def SendReliable (c : Connection) (rp : ReliablePacket) (generateNewSeq : Bool)
    (remote : Option Nat) (now : Nat) :
    Option (Connection × ReliablePacket × Option NPError) :=
  let rp1 := { rp with packet := { rp.packet with remoteAddress := remote } }
  match Send c rp1.packet generateNewSeq remote with
  | none => none
  | some res =>
    let rp2 := { rp1 with packet := res.packet }
    match res.err with
    | some e => some (res.conn, rp2, some e)
    | none =>
      let rp3 := { rp2 with nextCheck := now + rp2.retryInterval }
      some ({ res.conn with acksNeeded := res.conn.acksNeeded ++ [rp3] },
            rp3, none)

/-- Embedding of Connection.ProccessAcks (connection.go lines 280-298):
scan the acksNeeded list and drop every record whose wrapped packet the
inbound packet acknowledges (the OnAck callback fires at each removal
and is not modelled). -/
def ProccessAcks (c : Connection) (p : Packet) : Connection :=
  { c with acksNeeded := c.acksNeeded.filter (fun rp => !(IsAckBy rp.packet p)) }

/-- Embedding of Connection.Read (connection.go lines 169-200): read one
datagram (wrapping a socket failure as ReadFailed), decode it (wrapping
a decode failure as DecodeFailed), attach the source address, update the
ACK engine when updateAcksOnRead is set, then retire acknowledged
reliable packets.  Read never checks isOpen. -/
def Read (c : Connection) : Connection × Except NPError Packet :=
  match socketRead c.socket with
  | .error _ => (c, .error .readFailed)
  | .ok ((bs, addr), sock) =>
    let c1 := { c with socket := sock }
    match NewPacketFrom bs.length bs with
    | .error _ => (c1, .error .decodeFailed)
    | .ok p0 =>
      let p := { p0 with remoteAddress := some addr }
      let c2 := if c1.updateAcksOnRead then
          { c1 with ackState := (CalcAckMask c1.ackState p.seq).state }
        else
          c1
      let c3 := ProccessAcks c2 p
      (c3, .ok p)

/-- Result of one retryIfNeeded step: the connection and record after
their mutations, the maxed-out flag, and any send error.  The resent
flag of the Go signature is implied by the other fields and not kept. -/
structure RetryStepResult where
  conn : Connection
  rp : ReliablePacket
  maxed : Bool
  err : Option NPError
deriving Repr, DecidableEq

/-- Embedding of Connection.retryIfNeeded (connection.go lines 323-348).
When now is before nextCheck nothing happens.  Otherwise nextCheck is
advanced once by retryInterval and the uint8 fail counter incremented;
under budget the packet is resent with a fresh sequence number to its
recorded remote address (a panic in Send propagates as none, its error
as the err field), and over budget the record is flagged maxed (the
OnFailToAck callback fires here and is not modelled). -/
def retryIfNeeded (c : Connection) (now : Nat) (rp : ReliablePacket) :
    Option RetryStepResult :=
  if now < rp.nextCheck then
    some { conn := c, rp := rp, maxed := false, err := none }
  else
    let rp1 := { rp with nextCheck := rp.nextCheck + rp.retryInterval,
                         failCount := (rp.failCount + 1) % U8MOD }
    if rp1.failCount ≤ rp1.retryCount then
      match Send c rp1.packet true rp1.packet.remoteAddress with
      | none => none
      | some res =>
        some { conn := res.conn, rp := { rp1 with packet := res.packet },
               maxed := false, err := res.err }
    else
      some { conn := c, rp := rp1, maxed := true, err := none }

/-- Loop of Connection.RetryReliablePackets over the acksNeeded list,
rebuilding it functionally: a record is dropped when maxed, and a send
error aborts the scan immediately with the current record and the
unvisited tail still in the list, as the in-place Go loop leaves them. -/
def retryLoop (now : Nat) : Connection → List ReliablePacket →
    List ReliablePacket → Option (Connection × Option NPError)
  | c, [], acc => some ({ c with acksNeeded := acc }, none)
  | c, rp :: rest, acc =>
    match retryIfNeeded c now rp with
    | none => none
    | some r =>
      match r.err with
      | some e => some ({ r.conn with acksNeeded := acc ++ r.rp :: rest }, some e)
      | none =>
        retryLoop now r.conn rest (if r.maxed then acc else acc ++ [r.rp])

/-- Embedding of Connection.RetryReliablePackets (connection.go lines
300-321). -/
def RetryReliablePackets (c : Connection) (now : Nat) :
    Option (Connection × Option NPError) :=
  retryLoop now c c.acksNeeded []

/-- Embedding of Connection.Tick (connection.go lines 264-278).  The
read deadline set on the socket shows up as the possible failure of
socketRead.  Read is called once; when it returns a packet Tick returns
immediately with (true, nil) and the retry scan is skipped; only when
the read produced no packet does Tick run RetryReliablePackets and
return (false, its error). -/
def Tick (c : Connection) (now : Nat) :
    Option (Connection × Bool × Option NPError) :=
  let (c1, r) := Read c
  match r with
  | .ok _ => some (c1, true, none)
  | .error _ =>
    match RetryReliablePackets c1 now with
    | none => none
    | some (c2, err) => some (c2, false, err)

/-! Concrete fixtures used to evaluate the model at specific inputs. -/

/-- A well-formed two-byte packet used to exercise the codec. -/
def rtPacket : Packet :=
  { clientId := 1, seq := 2, chan := 3, ackSeq := 4, ackMask := 5,
    payloadSize := 2, payload := [10, 20] }

/-- An empty-payload packet with sequence 5, wrapped below as a reliable
in-flight record addressed to peer 9. -/
def tickPacket : Packet :=
  { clientId := 0, seq := 5, chan := 0, ackSeq := 0, ackMask := 0,
    payloadSize := 0, payload := [], remoteAddress := some 9 }

/-- A reliable record for tickPacket whose next retry check is due at
time 0. -/
def tickRP : ReliablePacket :=
  { packet := tickPacket, retryInterval := 10, retryCount := 5,
    nextCheck := 0, failCount := 0 }

/-- A connection with one inbound datagram queued (21 zero bytes, a
valid packet with sequence 0 acknowledging nothing) and one overdue
reliable record in flight. -/
def tickConn : Connection :=
  { socket := { isClosed := false, inbox := [(List.replicate 21 0, 7)], outbox := [] },
    remoteAddress := some 9, updateAcksOnRead := true, isOpen := true,
    ackState := { lastSeenSeq := 0, lastAckMask := 0 },
    acksNeeded := [tickRP], nextSeq := 1 }

/-- An all-zero empty-payload packet. -/
def zeroPacket : Packet :=
  { clientId := 0, seq := 0, chan := 0, ackSeq := 0, ackMask := 0,
    payloadSize := 0, payload := [] }

/-- An open idle connection with default remote 3, used to exercise the
close behaviour. -/
def idleConn : Connection :=
  { socket := { isClosed := false, inbox := [], outbox := [] },
    remoteAddress := some 3, updateAcksOnRead := true, isOpen := true,
    ackState := { lastSeenSeq := 0, lastAckMask := 0 },
    acksNeeded := [], nextSeq := 1 }

/-- A reliable record for zeroPacket, never due. -/
def idleRP : ReliablePacket :=
  { packet := zeroPacket, retryInterval := 10, retryCount := 5,
    nextCheck := 1000, failCount := 0 }

/-- The idle connection with its outbound sequence counter at the top of
the uint32 range. -/
def wrapConn : Connection :=
  { idleConn with nextSeq := 4294967295 }

/-! Helper lemmas shared by the claim theorems. -/

/-- A bitwise and with a single shifted-in bit is positive exactly when
that bit is set. -/
lemma and_shift_pos_iff (m d : Nat) : m &&& 1 <<< d > 0 ↔ m.testBit d = true := by
  rw [Nat.shiftLeft_eq, one_mul, Nat.and_two_pow]
  cases h : m.testBit d <;> simp [h, Nat.pos_pow_of_pos]

/-- WriteTo succeeds with the header and truncated payload whenever the
declared size is within the buffer. -/
lemma writeTo_eq_some (p : Packet) (h : p.payloadSize ≤ p.payload.length) :
    WriteTo p = some (encodeHeader p ++ p.payload.take p.payloadSize) := by
  unfold WriteTo
  rw [if_pos h]

/-- Reading a big-endian uint32 back off the wire recovers the value and
leaves the rest of the buffer. -/
lemma readU32_u32BE (x : Nat) (rest : List Nat) (h : x < U32MOD) :
    readU32 (u32BE x ++ rest) = (x, rest) := by
  unfold u32BE readU32 U32MOD at *
  simp only [List.cons_append, List.nil_append]
  refine Prod.ext ?_ rfl
  simp only
  omega

/-- The encoded header is exactly 21 bytes long. -/
lemma encodeHeader_length (p : Packet) : (encodeHeader p).length = payloadOffset := by
  simp [encodeHeader, u32BE, payloadOffset]

/-! Claim theorems. -/

/-- C1: the ACK engine update of CalcAckMask follows the two-branch rule
of section 4.2 exactly: for a fresh newer sequence the mask is shifted
left by the difference when it is below 32 and cleared otherwise, bit 0
is set and last_seen_seq advances; for an old or duplicate sequence bit
d is set when d is below 32 and nothing changes otherwise, with
last_seen_seq unchanged. -/
theorem calcAckMask_follows_spec (s : AckState) (cur : Nat) :
    ((CalcAckMask s cur).state.lastSeenSeq, (CalcAckMask s cur).state.lastAckMask) =
      specAckUpdate s.lastSeenSeq s.lastAckMask cur := by
  unfold CalcAckMask specAckUpdate ackMaskDepth
  by_cases h : s.lastSeenSeq < cur
  · have hpos : cur - s.lastSeenSeq > 0 := Nat.sub_pos_of_lt h
    by_cases h2 : cur - s.lastSeenSeq < 32
    · simp [h, h2, hpos]
    · simp [h, h2]
  · have h3 : ¬ cur > s.lastSeenSeq := h
    by_cases h2 : s.lastSeenSeq - cur < 32
    · simp [h, h3, h2]
    · simp [h, h3, h2]

/-- C2: IsAckBy is an exact iff: the inbound packet q acknowledges p
precisely when its ack sequence is at or above the sequence of p, the
difference is below the 32-bit window, and the corresponding bit of the
ack mask of q is one. -/
theorem isAckBy_iff (p q : Packet) :
    IsAckBy p q = true ↔
      p.seq ≤ q.ackSeq ∧ q.ackSeq - p.seq < 32 ∧
        q.ackMask.testBit (q.ackSeq - p.seq) = true := by
  unfold IsAckBy ackMaskDepth
  by_cases h1 : q.ackSeq < p.seq
  · simp only [if_pos h1, Bool.false_eq_true, false_iff]
    rintro ⟨h2, -, -⟩
    omega
  · by_cases h2 : q.ackSeq - p.seq ≥ 32
    · simp only [if_neg h1, if_pos h2, Bool.false_eq_true, false_iff]
      rintro ⟨-, h3, -⟩
      omega
    · have hle : p.seq ≤ q.ackSeq := Nat.le_of_not_lt h1
      have hlt : q.ackSeq - p.seq < 32 := Nat.lt_of_not_le h2
      simp only [if_neg h1, if_neg h2, decide_eq_true_eq, hle, hlt, true_and]
      exact and_shift_pos_iff q.ackMask (q.ackSeq - p.seq)

/-- C10: encoding is total exactly under the precondition that the
declared payload size fits the payload buffer; outside it the slice
p.Payload[:p.PayloadSize] is out of range and WriteTo panics, modelled
as none. -/
theorem writeTo_total_iff (p : Packet) :
    (∃ bs, WriteTo p = some bs) ↔ p.payloadSize ≤ p.payload.length := by
  unfold WriteTo
  by_cases h : p.payloadSize ≤ p.payload.length <;> simp [h]

/-- C6: evaluation at the state (0, 0) with inbound sequence 1.  The
stored engine state correctly becomes (1, 1), but the named return
values (mask, seq) of CalcAckMask are never assigned in the body and
come back as (0, 0), so the returned pair does not equal the stored
ack_mask and last_seen_seq at return time. -/
theorem calcAckMask_return_bug :
    (CalcAckMask { lastSeenSeq := 0, lastAckMask := 0 } 1).state =
      { lastSeenSeq := 1, lastAckMask := 1 } ∧
    (CalcAckMask { lastSeenSeq := 0, lastAckMask := 0 } 1).mask ≠
      (CalcAckMask { lastSeenSeq := 0, lastAckMask := 0 } 1).state.lastAckMask ∧
    (CalcAckMask { lastSeenSeq := 0, lastAckMask := 0 } 1).seq ≠
      (CalcAckMask { lastSeenSeq := 0, lastAckMask := 0 } 1).state.lastSeenSeq := by
  decide

/-- C9, counterexample: with last_seen_seq = 4294967295 and mask 0, the
inbound sequence 100 satisfies cur > last_seen_seq + 32 under unsigned
32-bit addition (the sum wraps to 31), yet the update takes the old
branch, the difference 4294967195 exceeds the window, and the state is
left at mask 0 and last_seen_seq 4294967295 rather than (1, 100). -/
theorem ack_jump_wrap_cex :
    100 > (4294967295 + 32) % U32MOD ∧
    ¬((CalcAckMask { lastSeenSeq := 4294967295, lastAckMask := 0 } 100).state.lastAckMask = 1 ∧
      (CalcAckMask { lastSeenSeq := 4294967295, lastAckMask := 0 } 100).state.lastSeenSeq = 100) := by
  decide

/-- C9, amended: when the comparison is read without 32-bit wraparound —
cur exceeds last_seen_seq + 32 as exact naturals — the update always
yields mask 0x00000001 and last_seen_seq = cur. -/
theorem ack_jump_past_window (s : AckState) (cur : Nat)
    (h : s.lastSeenSeq + 32 < cur) :
    (CalcAckMask s cur).state.lastAckMask = 1 ∧
      (CalcAckMask s cur).state.lastSeenSeq = cur := by
  unfold CalcAckMask ackMaskDepth
  have h1 : s.lastSeenSeq < cur := by omega
  have h2 : ¬(cur - s.lastSeenSeq < 32) := by omega
  simp [h1, h2]

/-- Witness for ack_jump_past_window at state (0, 0) and cur = 100. -/
theorem ack_jump_past_window_witness :
    ({ lastSeenSeq := 0, lastAckMask := 0 } : AckState).lastSeenSeq + 32 < 100 ∧
    ((CalcAckMask { lastSeenSeq := 0, lastAckMask := 0 } 100).state.lastAckMask = 1 ∧
      (CalcAckMask { lastSeenSeq := 0, lastAckMask := 0 } 100).state.lastSeenSeq = 100) :=
  ⟨by decide, ack_jump_past_window { lastSeenSeq := 0, lastAckMask := 0 } 100 (by decide)⟩

/-- C4: NewPacketFrom does not clamp the payload size claimed by the
wire header to the delivered byte count.  On a 21-byte datagram whose
payload_size field reads 5, the decoder accepts the packet and stores
payloadSize = 5 even though only n - 21 = 0 payload bytes were
delivered, contradicting the required clamp to n - 21. -/
theorem decode_no_clamp_bug :
    (NewPacketFrom 21 (List.replicate 17 0 ++ [0, 0, 0, 5])).toOption.map
        Packet.payloadSize = some 5 ∧
    ¬(5 ≤ 21 - payloadOffset) := by
  decide

/-- C5: evaluation of Tick on a connection with one readable datagram
and one reliable record whose nextCheck (0) has passed at now = 100.
The tick reads the packet and returns immediately: the record is still
in flight with failCount 0 and nothing was retransmitted, so the retry
scan was skipped on a tick that successfully read a packet. -/
theorem tick_skips_retry_bug :
    (Tick tickConn 100).map
        (fun r => (r.2.1, r.2.2, r.1.acksNeeded, r.1.socket.outbox)) =
      some (true, none, [tickRP], []) ∧
    tickRP.nextCheck ≤ 100 :=
  ⟨rfl, by decide⟩

/-- On a connection whose socket is closed, Send either produces no
result (payload-overrun panic in WriteTo) or reports NoRemote or
SendFailed: the destination resolution can still fail first, and any
actual write fails on the closed socket.  No path inspects isOpen and
none produces a distinguished closed error. -/
lemma send_closed_err (c : Connection) (p : Packet) (g : Bool) (r : Option Nat)
    (h : c.socket.isClosed = true) (res : SendResult)
    (hres : Send c p g r = some res) :
    res.err = some NPError.noRemote ∨ res.err = some NPError.sendFailed := by
  unfold Send GetNextSeq at hres
  cases g <;> simp only [Bool.false_eq_true, if_false, if_true, reduceIte] at hres <;>
  · split at hres
    · exact absurd hres (by simp)
    · split at hres
      · cases hres
        left
        rfl
      · rw [show (socketWrite _ _ _ = Except.error ()) from by
          simp [socketWrite, h]] at hres
        cases hres
        right
        rfl

/-- C7, counterexample: after Close, a Send on the connection fails
with the wrapped socket write error SendFailed, which is not the
distinguished Closed error the claim requires; the code never checks
isOpen. -/
theorem closed_send_not_closed_cex :
    (Send (Close idleConn) zeroPacket true (some 3)).map SendResult.err =
      some (some NPError.sendFailed) ∧
    NPError.sendFailed ≠ NPError.closed := by
  decide

/-- C7, amended: every send, send_reliable or read on a connection whose
socket has been closed does fail, but with NoRemote or the error
wrapping the underlying socket failure (SendFailed, ReadFailed), never
with a distinguished Closed error: no operation inspects isOpen and no
code path produces such an error. -/
theorem closed_ops_fail (c : Connection) (p : Packet) (g : Bool) (r : Option Nat)
    (rp : ReliablePacket) (now : Nat) (h : c.socket.isClosed = true) :
    (∀ res, Send c p g r = some res →
      res.err.isSome = true ∧ res.err ≠ some NPError.closed) ∧
    (∀ out, SendReliable c rp g r now = some out →
      out.2.2.isSome = true ∧ out.2.2 ≠ some NPError.closed) ∧
    (Read c).2 = .error NPError.readFailed := by
  refine ⟨?_, ?_, ?_⟩
  · intro res hres
    rcases send_closed_err c p g r h res hres with he | he <;> simp [he]
  · intro out hout
    unfold SendReliable at hout
    dsimp only at hout
    split at hout
    · exact absurd hout (by simp)
    · rename_i res hs
      split at hout
      · rename_i e he
        cases hout
        rcases send_closed_err c _ g r h res hs with he2 | he2 <;>
          rw [he2] at he <;> cases he <;> simp
      · rename_i he
        rcases send_closed_err c _ g r h res hs with he2 | he2 <;>
          rw [he2] at he <;> cases he
  · unfold Read socketRead
    rw [h]
    rfl

/-- Witness for closed_ops_fail on the closed idle connection. -/
theorem closed_ops_fail_witness :
    (Close idleConn).socket.isClosed = true ∧
    (Read (Close idleConn)).2 = .error NPError.readFailed :=
  ⟨by decide,
   (closed_ops_fail (Close idleConn) zeroPacket true (some 3) idleRP 0 (by decide)).2.2⟩

/-- A Send with generateNewSeq stamps the current counter on the packet
and post-increments the counter modulo 2 ^ 32, in every outcome branch,
provided the payload is within bounds so WriteTo does not panic. -/
lemma send_gen_map (c : Connection) (p : Packet) (r : Option Nat)
    (h : p.payloadSize ≤ p.payload.length) :
    (Send c p true r).map (fun res => (res.packet.seq, res.conn.nextSeq)) =
      some (c.nextSeq, (c.nextSeq + 1) % U32MOD) := by
  unfold Send GetNextSeq
  simp only [reduceIte]
  split
  · rename_i hW
    simp only [WriteTo] at hW
    rw [if_pos (by simpa using h)] at hW
    cases hW
  · rename_i w hW
    split
    · rfl
    · rename_i addr hr
      cases hcl : c.socket.isClosed <;> simp [socketWrite, hcl]

/-- A Send with generateNewSeq stamps the current counter on the packet
and post-increments the counter modulo 2 ^ 32, in every outcome branch,
provided the payload is within bounds so WriteTo does not panic. -/
lemma send_gen_eq (c : Connection) (p : Packet) (r : Option Nat)
    (h : p.payloadSize ≤ p.payload.length) :
    ∃ res, Send c p true r = some res ∧
      res.packet.seq = c.nextSeq ∧
      res.conn.nextSeq = (c.nextSeq + 1) % U32MOD := by
  have hm := send_gen_map c p r h
  cases hs : Send c p true r with
  | none =>
    rw [hs] at hm
    cases hm
  | some res =>
    rw [hs] at hm
    simp at hm
    exact ⟨res, rfl, hm.1, hm.2⟩

/-- C8, counterexample: with the internal counter at 4294967295, two
consecutive sends with generateNewSeq stamp 4294967295 and then 0 (the
uint32 counter wraps), so the second sequence is not greater than the
first. -/
theorem send_seq_wrap_cex :
    ((Send wrapConn zeroPacket true (some 3)).bind fun r1 =>
      (Send r1.conn zeroPacket true (some 3)).map fun r2 =>
        (r1.packet.seq, r2.packet.seq)) = some (4294967295, 0) ∧
    ¬((0 : Nat) > 4294967295) := by
  decide

/-- C8, amended: two consecutive sends with generateNewSeq stamp the
counter value and its successor modulo 2 ^ 32; the two sequences are
always distinct, and the second is strictly greater whenever the counter
does not wrap (next_seq below 2 ^ 32 - 1). -/
theorem send_seq_monotone_amended (c : Connection) (p₁ p₂ : Packet)
    (r₁ r₂ : Option Nat) (h : c.nextSeq < U32MOD)
    (h₁ : p₁.payloadSize ≤ p₁.payload.length)
    (h₂ : p₂.payloadSize ≤ p₂.payload.length) :
    ∃ res₁ res₂, Send c p₁ true r₁ = some res₁ ∧
      Send res₁.conn p₂ true r₂ = some res₂ ∧
      res₁.packet.seq = c.nextSeq ∧
      res₂.packet.seq = (c.nextSeq + 1) % U32MOD ∧
      res₁.packet.seq ≠ res₂.packet.seq ∧
      (c.nextSeq + 1 < U32MOD → res₁.packet.seq < res₂.packet.seq) := by
  obtain ⟨res₁, e₁, hs₁, hn₁⟩ := send_gen_eq c p₁ r₁ h₁
  obtain ⟨res₂, e₂, hs₂, hn₂⟩ := send_gen_eq res₁.conn p₂ r₂ h₂
  refine ⟨res₁, res₂, e₁, e₂, hs₁, ?_, ?_, ?_⟩
  · rw [hs₂, hn₁]
  · rw [hs₁, hs₂, hn₁]
    unfold U32MOD at *
    omega
  · intro hlt
    rw [hs₁, hs₂, hn₁]
    unfold U32MOD at *
    omega

/-- Witness for send_seq_monotone_amended on the idle connection with
counter 1. -/
theorem send_seq_monotone_witness :
    idleConn.nextSeq < U32MOD ∧
    zeroPacket.payloadSize ≤ zeroPacket.payload.length ∧
    (∃ res₁ res₂, Send idleConn zeroPacket true (some 3) = some res₁ ∧
      Send res₁.conn zeroPacket true (some 3) = some res₂ ∧
      res₁.packet.seq = idleConn.nextSeq ∧
      res₂.packet.seq = (idleConn.nextSeq + 1) % U32MOD ∧
      res₁.packet.seq ≠ res₂.packet.seq ∧
      (idleConn.nextSeq + 1 < U32MOD → res₁.packet.seq < res₂.packet.seq)) :=
  ⟨by decide, by decide,
   send_seq_monotone_amended idleConn zeroPacket zeroPacket (some 3) (some 3)
     (by decide) (by decide) (by decide)⟩

/-- C3: encode/decode round-trip.  For every well-formed packet the
encoded wire image is 21 + payload_size bytes; decoding it recovers
every field — client id, sequence, channel, ack sequence, ack mask,
payload size — and the payload bytes (the decoder returns them in a
fresh buffer indexed up to payload_size), with remote_address not on the
wire (the decoder leaves it unset).  Any input of fewer than 21 bytes is
rejected as malformed. -/
theorem packet_roundtrip (p : Packet) (h : WellFormed p) :
    (∃ w q, WriteTo p = some w ∧
      w.length = payloadOffset + p.payloadSize ∧
      NewPacketFrom w.length w = .ok q ∧
      q.clientId = p.clientId ∧ q.seq = p.seq ∧ q.chan = p.chan ∧
      q.ackSeq = p.ackSeq ∧ q.ackMask = p.ackMask ∧
      q.payloadSize = p.payloadSize ∧
      q.payload.take p.payloadSize = p.payload ∧
      q.remoteAddress = none) ∧
    (∀ n b, n < payloadOffset → NewPacketFrom n b = .error .malformedHeader) := by
  obtain ⟨hcid, hseq, hch, hack, hmask, hps, hlen, -⟩ := h
  have hle : p.payloadSize ≤ p.payload.length := by omega
  have htake : p.payload.take p.payloadSize = p.payload := by
    rw [← hlen]
    exact List.take_length p.payload
  have hW := writeTo_eq_some p hle
  have hwlen : (encodeHeader p ++ p.payload.take p.payloadSize).length =
      payloadOffset + p.payloadSize := by
    rw [htake, List.length_append, encodeHeader_length, hlen]
  refine ⟨?_, fun n b hn => by unfold NewPacketFrom; rw [if_pos hn]⟩
  set tail5 := u32BE p.payloadSize ++ p.payload with htail5
  set tail4 := u32BE p.ackMask ++ tail5 with htail4
  set tail3 := u32BE p.ackSeq ++ tail4 with htail3
  set tail2 := [p.chan % 256] ++ tail3 with htail2
  set tail1 := u32BE p.seq ++ tail2 with htail1
  have hw0 : encodeHeader p ++ p.payload.take p.payloadSize =
      u32BE p.clientId ++ tail1 := by
    rw [htake, htail1, htail2, htail3, htail4, htail5]
    simp [encodeHeader, List.append_assoc]
  have hr1 : readU32 (u32BE p.clientId ++ tail1) = (p.clientId, tail1) :=
    readU32_u32BE _ _ hcid
  have hr2 : readU32 tail1 = (p.seq, tail2) := readU32_u32BE _ _ hseq
  have hr3 : readU8 tail2 = (p.chan, tail3) := by
    rw [htail2]
    simp [readU8, Nat.mod_eq_of_lt hch]
  have hr4 : readU32 tail3 = (p.ackSeq, tail4) := readU32_u32BE _ _ hack
  have hr5 : readU32 tail4 = (p.ackMask, tail5) := readU32_u32BE _ _ hmask
  have hr6 : readU32 tail5 = (p.payloadSize, p.payload) := readU32_u32BE _ _ hps
  have hdrop : (u32BE p.clientId ++ tail1).drop payloadOffset = p.payload := by
    rw [← hw0, ← encodeHeader_length p, List.drop_left, htake]
  have hlen2 : (u32BE p.clientId ++ tail1).length = payloadOffset + p.payloadSize := by
    rw [← hw0]
    exact hwlen
  refine ⟨u32BE p.clientId ++ tail1,
    { clientId := p.clientId, seq := p.seq, chan := p.chan,
      ackSeq := p.ackSeq, ackMask := p.ackMask, payloadSize := p.payloadSize,
      payload := p.payload ++ List.replicate 22 0, remoteAddress := none },
    hW.trans (congrArg some hw0), hlen2, ?_, rfl, rfl, rfl, rfl, rfl, rfl,
    ?_, rfl⟩
  · have hnlt : ¬((u32BE p.clientId ++ tail1).length < payloadOffset) := by
      rw [hlen2]
      omega
    unfold NewPacketFrom
    rw [if_neg hnlt]
    simp only [hr1, hr2, hr3, hr4, hr5, hr6, hdrop]
    rw [hlen2]
    have htk : p.payload.take (payloadOffset + p.payloadSize + 1) = p.payload :=
      List.take_of_length_le (by omega)
    have hrep : payloadOffset + p.payloadSize + 1 - p.payload.length = 22 := by
      unfold payloadOffset
      omega
    rw [htk, hrep]
  · rw [← hlen, List.take_left]

/-- Witness for packet_roundtrip on a concrete two-byte packet. -/
theorem packet_roundtrip_witness :
    WellFormed rtPacket ∧
    ((∃ w q, WriteTo rtPacket = some w ∧
      w.length = payloadOffset + rtPacket.payloadSize ∧
      NewPacketFrom w.length w = .ok q ∧
      q.clientId = rtPacket.clientId ∧ q.seq = rtPacket.seq ∧
      q.chan = rtPacket.chan ∧
      q.ackSeq = rtPacket.ackSeq ∧ q.ackMask = rtPacket.ackMask ∧
      q.payloadSize = rtPacket.payloadSize ∧
      q.payload.take rtPacket.payloadSize = rtPacket.payload ∧
      q.remoteAddress = none) ∧
    (∀ n b, n < payloadOffset → NewPacketFrom n b = .error .malformedHeader)) :=
  ⟨by constructor <;> decide, packet_roundtrip rtPacket (by constructor <;> decide)⟩

end Netpeddler
